import Mathlib

/-!
Verification of the seccomp filtering core in pkg/sentry/kernel/seccomp.go.

The core is embedded shallowly: the BPF interpreter, the linux ABI constants,
the signal-info container and the ptrace notification capability are external
to the core (they live outside the filtering source file) and are modelled
from the specification; everything else is translated directly from the
source.  Machine integers are Nat/Int with explicit masks where overflow or
truncation matters.
-/

set_option maxHeartbeats 1000000

/-- Modelled from the spec: the linux ABI package (external to the filtering
core) splits a 32-bit seccomp verdict into action bits and a 16-bit auxiliary
data field; action codes are numerically ascending in permissiveness,
KILL < TRAP < ERRNO < TRACE < ALLOW.  KILL is the least permissive code. -/
def SECCOMP_RET_KILL : Nat := 0x00000000

/-- Modelled from the spec: the TRAP action code. -/
def SECCOMP_RET_TRAP : Nat := 0x00030000

/-- Modelled from the spec: the ERRNO action code. -/
def SECCOMP_RET_ERRNO : Nat := 0x00050000

/-- Modelled from the spec: the TRACE action code. -/
def SECCOMP_RET_TRACE : Nat := 0x7ff00000

/-- Modelled from the spec: the ALLOW action code, the most permissive and
numerically largest action code. -/
def SECCOMP_RET_ALLOW : Nat := 0x7fff0000

/-- Modelled from the spec: the mask selecting the action bits of a verdict. -/
def SECCOMP_RET_ACTION : Nat := 0x7fff0000

/-- Modelled from the spec: the mask selecting the 16-bit auxiliary data. -/
def SECCOMP_RET_DATA : Nat := 0x0000ffff

/-- Modelled from the spec: seccomp mode constant reported when no filter
is installed. -/
def SECCOMP_MODE_NONE : Nat := 0

/-- Modelled from the spec: seccomp mode constant reported when filtering
is active. -/
def SECCOMP_MODE_FILTER : Nat := 2

/-- Modelled from the spec: the SIGSYS signal number used in the synthetic
signal payload built by the dispatcher. -/
def SIGSYS : Int := 31

/-- Modelled from the spec: the si-code identifying a seccomp-generated
SIGSYS. -/
def SYS_SECCOMP : Int := 1

/-- Modelled from the spec: the errno meaning a function is not implemented,
written to the return register when a TRACE verdict finds no tracer. -/
def ENOSYS : Int := 38

/-- Source constant: maxSyscallFilterInstructions = 1 shifted left 15. -/
def maxSyscallFilterInstructions : Nat := 1 <<< 15

/-- Source struct seccompData: the data passed to seccomp-bpf filters.
Field nr is an int32, arch a uint32, instructionPointer a uint64 and args the
first six 64-bit syscall arguments. -/
structure SeccompData where
  nr : Int
  arch : Nat
  instructionPointer : Nat
  args : Fin 6 → Nat

/-- Modelled from the spec: a compiled BPF program (package bpf, external to
this core) is opaque here.  It carries its instruction count and its
evaluation function, which either returns a 32-bit verdict or reports an
execution error (None). -/
structure Program where
  length : Nat
  exec : SeccompData → Option Nat

/-- Source: construction of the seccompData record in evaluateSyscallFilters.
The args array is zero-initialised and the loop copies at most six arguments,
truncating each to 64 bits. -/
def mkSeccompData (sysno : Int) (auditArch : Nat) (args : List Nat) (ip : Nat) :
    SeccompData :=
  { nr := sysno
    arch := auditArch
    instructionPointer := ip
    args := fun i => (args.getD i.1 0) % (2 ^ 64) }

/-- Source: the error branch of the evaluation loop.  A successful run of
bpf.Exec yields a uint32 verdict; on error the verdict is replaced by
SECCOMP_RET_KILL (fail closed). -/
def execFilter (p : Program) (d : SeccompData) : Nat :=
  match p.exec d with
  | some r => r % (2 ^ 32)
  | none => SECCOMP_RET_KILL

/-- Source: the precedence update of the evaluation loop; the running verdict
is replaced only when the new verdict's action bits are strictly smaller. -/
def combine (ret thisRet : Nat) : Nat :=
  if thisRet &&& SECCOMP_RET_ACTION < ret &&& SECCOMP_RET_ACTION then thisRet
  else ret

/-- Source: one iteration of the evaluation loop at stack index ip.1 for
filter ip.2.  The accumulator carries the running verdict and the list of
stack indices for which a diagnostic was emitted (the Debugf call on an
interpreter error). -/
def evalStep (d : SeccompData) (acc : Nat × List Nat) (ip : Nat × Program) :
    Nat × List Nat :=
  match ip.2.exec d with
  | some r => (combine acc.1 (r % (2 ^ 32)), acc.2)
  | none => (combine acc.1 SECCOMP_RET_KILL, acc.2 ++ [ip.1])

/-- Source: evaluateSyscallFilters together with its diagnostic output.  The
running verdict starts at SECCOMP_RET_ALLOW, an absent stack returns it
immediately, and the loop walks indices from len-1 down to 0, which is the
reverse of the enumerated stack. -/
def evaluateSyscallFiltersD (sf : Option (List Program)) (d : SeccompData) :
    Nat × List Nat :=
  match sf with
  | none => (SECCOMP_RET_ALLOW, [])
  | some fs => fs.enum.reverse.foldl (evalStep d) (SECCOMP_RET_ALLOW, [])

/-- Source: evaluateSyscallFilters returns only the combined verdict; the
diagnostics are a log side effect. -/
def evaluateSyscallFilters (sf : Option (List Program)) (d : SeccompData) :
    Nat :=
  (evaluateSyscallFiltersD sf d).1

/-- Source: the result type of checkSeccompSyscall (Go type seccompResult
with values deny, allow, kill, trace).  A kill result means the task
terminates immediately with an exit status indicating SIGSYS. -/
inductive seccompResult where
  | deny
  | allow
  | kill
  | trace
deriving DecidableEq

/-- Modelled from the spec: the signal payload (arch.SignalInfo, external to
this core) carries the signal number, errno, code, faulting call address,
syscall number and audit architecture. -/
structure SignalInfo where
  signo : Int
  errno : Int
  code : Int
  callAddr : Nat
  syscall : Int
  arch : Nat
deriving DecidableEq

/-- Source: seccompSiginfo builds the synthetic SIGSYS payload. -/
def seccompSiginfo (errno sysno : Int) (ip : Nat) (auditArch : Nat) :
    SignalInfo :=
  { signo := SIGSYS
    errno := errno
    code := SYS_SECCOMP
    callAddr := ip
    syscall := sysno
    arch := auditArch }

/-- Modelled from the spec: the observable side effects performed by the
dispatcher through external capabilities: signal delivery, return-register
rewrite, and the tracer notification attempt (with its 16-bit payload). -/
inductive SeccompEffect where
  | sendSignal (si : SignalInfo)
  | setReturn (v : Int)
  | notifyTracer (data : Nat)
deriving DecidableEq

/-- Source: conversion of the auxiliary data to uint16 before it is handed to
the ptrace notification capability. -/
def toUint16 (n : Nat) : Nat := n % (2 ^ 16)

/-- Source: the switch statement of checkSeccompSyscall over the combined
verdict's action bits, factored over the raw verdict.  The cases appear in
source order TRAP, ERRNO, TRACE, ALLOW, then KILL falling through to the
default (kill) case.  tracerNotified is the external ptraceSeccomp
capability; the effect list records the external side effects in the order
they are performed. -/
def seccompDispatch (tracerNotified : Nat → Bool) (auditArch : Nat)
    (sysno : Int) (ip : Nat) (result : Nat) :
    seccompResult × List SeccompEffect :=
  if result &&& SECCOMP_RET_ACTION = SECCOMP_RET_TRAP then
    (.deny, [.sendSignal
      (seccompSiginfo ((result &&& SECCOMP_RET_DATA : Nat) : Int) sysno ip auditArch)])
  else if result &&& SECCOMP_RET_ACTION = SECCOMP_RET_ERRNO then
    (.deny, [.setReturn (-((result &&& SECCOMP_RET_DATA : Nat) : Int))])
  else if result &&& SECCOMP_RET_ACTION = SECCOMP_RET_TRACE then
    if tracerNotified (toUint16 (result &&& SECCOMP_RET_DATA)) then
      (.trace, [.notifyTracer (toUint16 (result &&& SECCOMP_RET_DATA))])
    else
      (.deny, [.notifyTracer (toUint16 (result &&& SECCOMP_RET_DATA)),
               .setReturn (-ENOSYS)])
  else if result &&& SECCOMP_RET_ACTION = SECCOMP_RET_ALLOW then
    (.allow, [])
  else
    (.kill, [])

/-- Source: checkSeccompSyscall evaluates the filters on the encoded snapshot
and dispatches on the combined verdict. -/
def checkSeccompSyscall (tracerNotified : Nat → Bool)
    (sf : Option (List Program)) (auditArch : Nat) (sysno : Int)
    (args : List Nat) (ip : Nat) : seccompResult × List SeccompEffect :=
  seccompDispatch tracerNotified auditArch sysno ip
    (evaluateSyscallFilters sf (mkSeccompData sysno auditArch args ip))

/-- Source: the error returned by AppendSyscallFilter when the instruction
budget is exceeded (syserror.ENOMEM). -/
inductive SyscallFilterError where
  | ENOMEM
deriving DecidableEq

/-- Source: AppendSyscallFilter on one task's published stack.  The total
length starts at the new program's length, each pre-existing filter
contributes its length plus a penalty of 4, and a total strictly above
maxSyscallFilterInstructions is rejected with ENOMEM; otherwise the new
program is appended to a copy of the old stack. -/
def appendSyscallFilter (sf : Option (List Program)) (p : Program) :
    Except SyscallFilterError (List Program) :=
  let totalLength : Nat :=
    match sf with
    | none => p.length
    | some oldFilters => oldFilters.foldl (fun n f => n + (f.length + 4)) p.length
  let newFilters : List Program :=
    match sf with
    | none => []
    | some oldFilters => oldFilters
  if totalLength > maxSyscallFilterInstructions then
    .error .ENOMEM
  else
    .ok (newFilters ++ [p])

/-- Task identifiers (thread ids). -/
abbrev TaskId := Nat

/-- System state for the multi-task operations: each task's published filter
stack (None when never stored) and its thread-group id.  Thread-group
membership never changes within this core. -/
structure SState where
  filters : TaskId → Option (List Program)
  tgid : TaskId → Nat

/-- Source: AppendSyscallFilter at the state level.  On error the task's
published stack (and everything else) is left unchanged; on success the
task's stack is replaced by the appended copy. -/
def AppendSyscallFilterS (s : SState) (t : TaskId) (p : Program) :
    SState × Option SyscallFilterError :=
  match appendSyscallFilter (s.filters t) p with
  | .error e => (s, some e)
  | .ok nf =>
      ({ s with filters := fun u => if u = t then some nf else s.filters u },
       none)

/-- Source: SyncSyscallFiltersToThreadGroup reads the source task's stack
once and stores a fresh copy into every other task of the same thread group;
when the source stack is absent the stored copy is the empty stack. -/
def SyncSyscallFiltersToThreadGroup (s : SState) (t : TaskId) : SState :=
  { s with
    filters := fun ot =>
      if s.tgid ot = s.tgid t ∧ ot ≠ t then some ((s.filters t).getD [])
      else s.filters ot }

/-- Source: SeccompMode reports FILTER exactly when the published stack is
present and non-empty. -/
def SeccompMode (sf : Option (List Program)) : Nat :=
  match sf with
  | some fs => if fs.length > 0 then SECCOMP_MODE_FILTER else SECCOMP_MODE_NONE
  | none => SECCOMP_MODE_NONE

/-! Bridge lemmas: the indexed evaluation loop projected to the running
verdict is a fold of combine over the reversed stack's verdicts. -/

/-- Fold of the precedence update over a list of verdicts in walk order. -/
def walkFold (a : Nat) (vs : List Nat) : Nat := vs.foldl combine a

lemma evalStep_fst (d : SeccompData) (acc : Nat × List Nat)
    (ip : Nat × Program) :
    (evalStep d acc ip).1 = combine acc.1 (execFilter ip.2 d) := by
  unfold evalStep execFilter
  cases ip.2.exec d <;> rfl

lemma foldl_evalStep_fst (d : SeccompData) (l : List (Nat × Program))
    (acc : Nat × List Nat) :
    (l.foldl (evalStep d) acc).1
      = walkFold acc.1 (l.map (fun ip => execFilter ip.2 d)) := by
  induction l generalizing acc with
  | nil => rfl
  | cons x xs ih =>
      simp only [List.foldl_cons, List.map_cons, walkFold] at *
      rw [ih, evalStep_fst]

lemma evaluateSyscallFilters_some (fs : List Program) (d : SeccompData) :
    evaluateSyscallFilters (some fs) d
      = walkFold SECCOMP_RET_ALLOW
          ((fs.reverse).map (fun p => execFilter p d)) := by
  unfold evaluateSyscallFilters evaluateSyscallFiltersD
  rw [foldl_evalStep_fst]
  have h1 : fs.enum.reverse.map (fun ip : Nat × Program => execFilter ip.2 d)
      = (fs.enum.reverse.map Prod.snd).map (fun p => execFilter p d) := by
    rw [List.map_map]; rfl
  have h2 : fs.enum.reverse.map Prod.snd = fs.reverse := by
    rw [List.map_reverse, List.enum_map_snd]
  rw [h1, h2]

lemma combine_action (a b : Nat) :
    combine a b &&& SECCOMP_RET_ACTION
      = min (a &&& SECCOMP_RET_ACTION) (b &&& SECCOMP_RET_ACTION) := by
  unfold combine
  rcases lt_or_ge (b &&& SECCOMP_RET_ACTION) (a &&& SECCOMP_RET_ACTION)
    with h | h
  · rw [if_pos h, Nat.min_def, if_neg (by omega)]
  · rw [if_neg (by omega), Nat.min_def, if_pos (by omega)]

lemma walkFold_action (vs : List Nat) (a : Nat) :
    walkFold a vs &&& SECCOMP_RET_ACTION
      = vs.foldl (fun m v => min m (v &&& SECCOMP_RET_ACTION))
          (a &&& SECCOMP_RET_ACTION) := by
  induction vs generalizing a with
  | nil => rfl
  | cons v vs ih =>
      simp only [walkFold, List.foldl_cons] at *
      rw [ih, combine_action]

lemma walkFold_keep (vs : List Nat) (a : Nat)
    (h : ∀ v ∈ vs,
      ¬ (v &&& SECCOMP_RET_ACTION < a &&& SECCOMP_RET_ACTION)) :
    walkFold a vs = a := by
  induction vs with
  | nil => rfl
  | cons v vs ih =>
      have hv := h v (by simp)
      have hc : combine a v = a := by unfold combine; rw [if_neg hv]
      simp only [walkFold, List.foldl_cons, hc] at *
      exact ih (fun u hu => h u (by simp [hu]))

lemma foldl_min_lt (vs : List Nat) (x : Nat) :
    ∀ a, x < a → (∀ v ∈ vs, x < v &&& SECCOMP_RET_ACTION) →
      x < vs.foldl (fun m v => min m (v &&& SECCOMP_RET_ACTION)) a := by
  induction vs with
  | nil => exact fun a ha _ => ha
  | cons v vs ih =>
      intro a ha h
      exact ih _ (lt_min ha (h v (by simp))) (fun u hu => h u (by simp [hu]))

lemma walkFold_winner (xs ys : List Nat) (v : Nat)
    (hxs : ∀ u ∈ xs,
      v &&& SECCOMP_RET_ACTION < u &&& SECCOMP_RET_ACTION)
    (hys : ∀ u ∈ ys,
      ¬ (u &&& SECCOMP_RET_ACTION < v &&& SECCOMP_RET_ACTION))
    (hallow : v &&& SECCOMP_RET_ACTION
      < SECCOMP_RET_ALLOW &&& SECCOMP_RET_ACTION) :
    walkFold SECCOMP_RET_ALLOW (xs ++ v :: ys) = v := by
  have hsplit : walkFold SECCOMP_RET_ALLOW (xs ++ v :: ys)
      = walkFold (combine (walkFold SECCOMP_RET_ALLOW xs) v) ys := by
    unfold walkFold
    rw [List.foldl_append, List.foldl_cons]
  have hacc : v &&& SECCOMP_RET_ACTION
      < walkFold SECCOMP_RET_ALLOW xs &&& SECCOMP_RET_ACTION := by
    rw [walkFold_action]
    exact foldl_min_lt xs _ _ hallow hxs
  have hcomb : combine (walkFold SECCOMP_RET_ALLOW xs) v = v := by
    unfold combine; rw [if_pos hacc]
  rw [hsplit, hcomb]
  exact walkFold_keep ys v hys

lemma eval_winner (fs gs : List Program) (p : Program) (d : SeccompData)
    (hgs : ∀ q ∈ gs, execFilter p d &&& SECCOMP_RET_ACTION
      < execFilter q d &&& SECCOMP_RET_ACTION)
    (hfs : ∀ q ∈ fs, execFilter p d &&& SECCOMP_RET_ACTION
      ≤ execFilter q d &&& SECCOMP_RET_ACTION)
    (hallow : execFilter p d &&& SECCOMP_RET_ACTION < SECCOMP_RET_ALLOW) :
    evaluateSyscallFilters (some (fs ++ p :: gs)) d = execFilter p d := by
  rw [evaluateSyscallFilters_some]
  have hrev : ((fs ++ p :: gs).reverse).map (fun q => execFilter q d)
      = (gs.reverse.map (fun q => execFilter q d))
        ++ execFilter p d :: (fs.reverse.map (fun q => execFilter q d)) := by
    simp [List.reverse_append]
  rw [hrev]
  apply walkFold_winner
  · intro u hu
    simp only [List.mem_map, List.mem_reverse] at hu
    obtain ⟨q, hq, rfl⟩ := hu
    exact hgs q hq
  · intro u hu
    simp only [List.mem_map, List.mem_reverse] at hu
    obtain ⟨q, hq, rfl⟩ := hu
    exact not_lt.mpr (hfs q hq)
  · exact hallow

lemma action_le_allow (x : Nat) :
    x &&& SECCOMP_RET_ACTION ≤ SECCOMP_RET_ALLOW :=
  le_trans Nat.and_le_right (by decide)

lemma foldr_min_comm (g : Program → Nat) (fs : List Program) (a : Nat) :
    fs.foldr (fun p m => min m (g p)) a
      = fs.foldr (fun p m => min (g p) m) a := by
  induction fs with
  | nil => rfl
  | cons p ps ih => simp only [List.foldr_cons, ih, Nat.min_comm]

lemma eval_action_foldr (fs : List Program) (d : SeccompData) :
    evaluateSyscallFilters (some fs) d &&& SECCOMP_RET_ACTION
      = (fs.map (fun p => execFilter p d &&& SECCOMP_RET_ACTION)).foldr
          min SECCOMP_RET_ALLOW := by
  rw [evaluateSyscallFilters_some, walkFold_action]
  have hA : SECCOMP_RET_ALLOW &&& SECCOMP_RET_ACTION = SECCOMP_RET_ALLOW := by
    decide
  rw [hA, List.map_reverse, List.foldl_reverse, List.foldr_map,
      List.foldr_map]
  exact foldr_min_comm _ fs _

/-- C1: the action bits of the combined verdict returned by
evaluateSyscallFilters equal the minimum, under the numerically ascending
ordering KILL < TRAP < ERRNO < TRACE < ALLOW, of the action bits of each
filter's individual verdict (folded with the default ALLOW); for two filters
the combined action is exactly min of the two actions, independent of
installation order, so every installed filter contributes (not
first-non-allow-wins). -/
theorem seccomp_combined_action_is_min (fs : List Program) (p1 p2 : Program)
    (d : SeccompData) :
    (evaluateSyscallFilters (some fs) d &&& SECCOMP_RET_ACTION
      = (fs.map (fun p => execFilter p d &&& SECCOMP_RET_ACTION)).foldr
          min SECCOMP_RET_ALLOW)
    ∧ (evaluateSyscallFilters (some [p1, p2]) d &&& SECCOMP_RET_ACTION
      = min (execFilter p1 d &&& SECCOMP_RET_ACTION)
          (execFilter p2 d &&& SECCOMP_RET_ACTION))
    ∧ (evaluateSyscallFilters (some [p1, p2]) d &&& SECCOMP_RET_ACTION
      = evaluateSyscallFilters (some [p2, p1]) d &&& SECCOMP_RET_ACTION) := by
  have hpair : ∀ q1 q2 : Program,
      evaluateSyscallFilters (some [q1, q2]) d &&& SECCOMP_RET_ACTION
        = min (execFilter q1 d &&& SECCOMP_RET_ACTION)
            (execFilter q2 d &&& SECCOMP_RET_ACTION) := by
    intro q1 q2
    rw [eval_action_foldr]
    simp only [List.map_cons, List.map_nil, List.foldr_cons, List.foldr_nil]
    rw [min_eq_left (action_le_allow (execFilter q2 d))]
  refine ⟨eval_action_foldr fs d, hpair p1 p2, ?_⟩
  rw [hpair p1 p2, hpair p2 p1, Nat.min_comm]

/-- C5: with an absent or empty filter stack, evaluateSyscallFilters returns
the ALLOW verdict and checkSeccompSyscall returns the Allow outcome, for
every syscall number, argument list and instruction pointer. -/
theorem seccomp_empty_stack_allows (tracer : Nat → Bool) (auditArch : Nat)
    (sysno : Int) (args : List Nat) (ip : Nat) (d : SeccompData) :
    evaluateSyscallFilters none d = SECCOMP_RET_ALLOW
    ∧ evaluateSyscallFilters (some []) d = SECCOMP_RET_ALLOW
    ∧ (checkSeccompSyscall tracer none auditArch sysno args ip).1
        = seccompResult.allow
    ∧ (checkSeccompSyscall tracer (some []) auditArch sysno args ip).1
        = seccompResult.allow := by
  have hd : ∀ r : Nat, r = SECCOMP_RET_ALLOW →
      (seccompDispatch tracer auditArch sysno ip r).1 = seccompResult.allow := by
    intro r hr
    subst hr
    unfold seccompDispatch
    rw [if_neg (by decide), if_neg (by decide), if_neg (by decide),
        if_pos (by decide)]
  exact ⟨rfl, rfl, hd _ rfl, hd _ rfl⟩

/-! Concrete programs and data used by counterexamples and witnesses. -/

/-- Concrete syscall snapshot with all fields zero. -/
def sampleData : SeccompData := mkSeccompData 0 0 [] 0

/-- Concrete filter returning verdict ALLOW with auxiliary data 5. -/
def allowData5Prog : Program := { length := 1, exec := fun _ => some 0x7fff0005 }

/-- Concrete filter returning verdict ERRNO with auxiliary data 5. -/
def errno5Prog : Program := { length := 1, exec := fun _ => some 0x00050005 }

/-- Concrete filter returning verdict ERRNO with auxiliary data 7. -/
def errno7Prog : Program := { length := 1, exec := fun _ => some 0x00050007 }

/-- Concrete filter returning verdict ALLOW with zero data. -/
def allowProg : Program := { length := 1, exec := fun _ => some 0x7fff0000 }

/-- Concrete filter returning verdict KILL. -/
def killProg : Program := { length := 1, exec := fun _ => some 0x00000000 }

/-- Concrete filter returning verdict TRACE with auxiliary data 7. -/
def traceProg : Program := { length := 1, exec := fun _ => some 0x7ff00007 }

/-- Concrete filter whose execution always errors. -/
def errProg : Program := { length := 1, exec := fun _ => none }

/-- C3 counterexample: a single installed filter returns the verdict ALLOW
with auxiliary data 5.  Its action code ties the combined minimal action,
and it is the most-recently-installed filter among the ties, yet the
combined verdict's auxiliary data is 0, not 5: the reduction's initial ALLOW
constant, not the tying filter, supplies the retained verdict. -/
theorem seccomp_tie_data_counterexample :
    execFilter allowData5Prog sampleData &&& SECCOMP_RET_ACTION
        = evaluateSyscallFilters (some [allowData5Prog]) sampleData
            &&& SECCOMP_RET_ACTION
    ∧ execFilter allowData5Prog sampleData &&& SECCOMP_RET_DATA = 5
    ∧ evaluateSyscallFilters (some [allowData5Prog]) sampleData
        &&& SECCOMP_RET_DATA = 0 := by
  decide

/-- C3 (amended): evaluation walks the stack from most-recently-installed to
first-installed, and when the minimal action code is strictly below ALLOW
the combined verdict is exactly the verdict of the most-recently-installed
filter among those achieving the minimum: filter p wins whenever every
later-installed filter (gs) has a strictly larger action code and every
earlier-installed filter (fs) has an action code at least p's — so a filter
walked later whose action merely ties the retained minimum never replaces
the retained verdict.  When the minimal action is ALLOW the combined verdict
is the ALLOW constant with zero auxiliary data, not any filter's verdict. -/
theorem seccomp_tie_break_most_recent (fs gs : List Program) (p : Program)
    (d : SeccompData)
    (hgs : ∀ q ∈ gs, execFilter p d &&& SECCOMP_RET_ACTION
      < execFilter q d &&& SECCOMP_RET_ACTION)
    (hfs : ∀ q ∈ fs, execFilter p d &&& SECCOMP_RET_ACTION
      ≤ execFilter q d &&& SECCOMP_RET_ACTION)
    (hallow : execFilter p d &&& SECCOMP_RET_ACTION < SECCOMP_RET_ALLOW) :
    evaluateSyscallFilters (some (fs ++ p :: gs)) d = execFilter p d :=
  eval_winner fs gs p d hgs hfs hallow

/-- Witness for the amended C3: with install order errno7Prog, errno5Prog,
allowProg, the two ERRNO filters tie for the minimal action and the
more-recently-installed errno5Prog supplies the whole combined verdict. -/
theorem seccomp_tie_break_most_recent_witness :
    evaluateSyscallFilters (some ([errno7Prog] ++ errno5Prog :: [allowProg]))
        sampleData = execFilter errno5Prog sampleData :=
  seccomp_tie_break_most_recent [errno7Prog] [allowProg] errno5Prog
    sampleData (by decide) (by decide) (by decide)

/-- C10: when the interpreter errors on filter p, the verdict substituted for
p is the entire 32-bit SECCOMP_RET_KILL constant, whose auxiliary data field
is zero; and whenever that substituted verdict wins the precedence reduction
(every later-installed filter produces a strictly larger action code), the
combined verdict is SECCOMP_RET_KILL itself, so its auxiliary data is zero
regardless of anything p's partial execution produced. -/
theorem seccomp_error_kill_zero_data (fs gs : List Program) (p : Program)
    (d : SeccompData) (herr : p.exec d = none)
    (hgs : ∀ q ∈ gs, 0 < execFilter q d &&& SECCOMP_RET_ACTION) :
    execFilter p d = SECCOMP_RET_KILL
    ∧ SECCOMP_RET_KILL &&& SECCOMP_RET_DATA = 0
    ∧ evaluateSyscallFilters (some (fs ++ p :: gs)) d = SECCOMP_RET_KILL
    ∧ evaluateSyscallFilters (some (fs ++ p :: gs)) d &&& SECCOMP_RET_DATA
        = 0 := by
  have hef : execFilter p d = SECCOMP_RET_KILL := by
    unfold execFilter; rw [herr]
  have hA0 : execFilter p d &&& SECCOMP_RET_ACTION = 0 := by
    rw [hef]; decide
  have heval : evaluateSyscallFilters (some (fs ++ p :: gs)) d
      = SECCOMP_RET_KILL := by
    rw [← hef]
    apply eval_winner
    · intro q hq; rw [hA0]; exact hgs q hq
    · intro q hq; rw [hA0]; exact Nat.zero_le _
    · rw [hA0]; decide
  exact ⟨hef, by decide, heval, by rw [heval]; decide⟩

/-- Witness for C10: the erroring filter installed before a pure-ALLOW filter
wins the reduction and the combined verdict is KILL with zero data. -/
theorem seccomp_error_kill_zero_data_witness :
    execFilter errProg sampleData = SECCOMP_RET_KILL
    ∧ SECCOMP_RET_KILL &&& SECCOMP_RET_DATA = 0
    ∧ evaluateSyscallFilters (some ([] ++ errProg :: [allowProg])) sampleData
        = SECCOMP_RET_KILL
    ∧ evaluateSyscallFilters (some ([] ++ errProg :: [allowProg])) sampleData
        &&& SECCOMP_RET_DATA = 0 :=
  seccomp_error_kill_zero_data [] [allowProg] errProg sampleData rfl
    (by decide)

/-! Diagnostics: the second component of the evaluation loop records exactly
the stack indices whose filter execution errored. -/

lemma foldl_evalStep_snd (d : SeccompData) (l : List (Nat × Program))
    (acc : Nat × List Nat) :
    (l.foldl (evalStep d) acc).2
      = acc.2 ++ l.filterMap
          (fun ip => match ip.2.exec d with
                     | none => some ip.1
                     | some _ => none) := by
  induction l generalizing acc with
  | nil => simp
  | cons x xs ih =>
      rw [List.foldl_cons, ih, List.filterMap_cons]
      cases hx : x.2.exec d with
      | none =>
          simp only [evalStep, hx, List.append_assoc, List.singleton_append]
      | some r =>
          simp only [evalStep, hx]

lemma mem_enum_append (fs gs : List Program) (p : Program) :
    (fs.length, p) ∈ (fs ++ p :: gs).enum := by
  rw [List.mem_iff_getElem]
  have hlen2 : fs.length < (fs ++ p :: gs).length := by
    rw [List.length_append, List.length_cons]
    omega
  have hlen : fs.length < (fs ++ p :: gs).enum.length := by
    rw [List.enum_length]
    exact hlen2
  refine ⟨fs.length, hlen, ?_⟩
  rw [List.getElem_enum]
  have hp : (fs ++ p :: gs)[fs.length] = p := by
    rw [List.getElem_append_right (le_refl fs.length)]
    simp
  rw [hp]

lemma error_index_in_diags (fs gs : List Program) (p : Program)
    (d : SeccompData) (herr : p.exec d = none) :
    fs.length ∈ (evaluateSyscallFiltersD (some (fs ++ p :: gs)) d).2 := by
  unfold evaluateSyscallFiltersD
  rw [foldl_evalStep_snd, List.nil_append, List.mem_filterMap]
  refine ⟨(fs.length, p), ?_, ?_⟩
  · rw [List.mem_reverse]
    exact mem_enum_append fs gs p
  · simp only [herr]

lemma eval_congr (fs gs : List Program) (d : SeccompData)
    (h : fs.map (fun p => execFilter p d) = gs.map (fun p => execFilter p d)) :
    evaluateSyscallFilters (some fs) d
      = evaluateSyscallFilters (some gs) d := by
  rw [evaluateSyscallFilters_some, evaluateSyscallFilters_some,
      List.map_reverse, List.map_reverse, h]

/-- C4: an interpreter execution error on a filter is fail-closed: the
filter's verdict is treated as KILL, so evaluation equals that of the same
stack with the erroring filter replaced by a filter returning
SECCOMP_RET_KILL; a diagnostic identifying the erroring filter's stack
position is emitted; and the error never reaches past the dispatcher:
checkSeccompSyscall returns one of the four enforcement outcomes deny,
allow, kill, trace. -/
theorem seccomp_interpreter_error_fail_closed (fs gs : List Program)
    (p : Program) (tracer : Nat → Bool) (auditArch : Nat) (sysno : Int)
    (args : List Nat) (ip : Nat)
    (herr : p.exec (mkSeccompData sysno auditArch args ip) = none) :
    evaluateSyscallFilters (some (fs ++ p :: gs))
        (mkSeccompData sysno auditArch args ip)
      = evaluateSyscallFilters
          (some (fs ++ { length := p.length,
                         exec := fun _ => some SECCOMP_RET_KILL } :: gs))
          (mkSeccompData sysno auditArch args ip)
    ∧ fs.length ∈ (evaluateSyscallFiltersD (some (fs ++ p :: gs))
        (mkSeccompData sysno auditArch args ip)).2
    ∧ ((checkSeccompSyscall tracer (some (fs ++ p :: gs)) auditArch sysno
          args ip).1 = seccompResult.deny
       ∨ (checkSeccompSyscall tracer (some (fs ++ p :: gs)) auditArch sysno
          args ip).1 = seccompResult.allow
       ∨ (checkSeccompSyscall tracer (some (fs ++ p :: gs)) auditArch sysno
          args ip).1 = seccompResult.kill
       ∨ (checkSeccompSyscall tracer (some (fs ++ p :: gs)) auditArch sysno
          args ip).1 = seccompResult.trace) := by
  refine ⟨?_, error_index_in_diags fs gs p _ herr, ?_⟩
  · apply eval_congr
    rw [List.map_append, List.map_append, List.map_cons, List.map_cons]
    have hef : execFilter p (mkSeccompData sysno auditArch args ip)
        = execFilter { length := p.length,
                       exec := fun _ => some SECCOMP_RET_KILL }
            (mkSeccompData sysno auditArch args ip) := by
      unfold execFilter
      rw [herr]
      rfl
    rw [hef]
  · cases h : (checkSeccompSyscall tracer (some (fs ++ p :: gs)) auditArch
        sysno args ip).1 with
    | deny => exact Or.inl rfl
    | allow => exact Or.inr (Or.inl rfl)
    | kill => exact Or.inr (Or.inr (Or.inl rfl))
    | trace => exact Or.inr (Or.inr (Or.inr rfl))

/-- Witness for C4: a single erroring filter. -/
theorem seccomp_interpreter_error_fail_closed_witness :
    evaluateSyscallFilters (some (([] : List Program) ++ errProg :: []))
        (mkSeccompData 0 0 [] 0)
      = evaluateSyscallFilters
          (some (([] : List Program)
            ++ { length := errProg.length,
                 exec := fun _ => some SECCOMP_RET_KILL } :: []))
          (mkSeccompData 0 0 [] 0)
    ∧ (0 : Nat) ∈ (evaluateSyscallFiltersD
        (some (([] : List Program) ++ errProg :: []))
        (mkSeccompData 0 0 [] 0)).2
    ∧ ((checkSeccompSyscall (fun _ => false) (some ([] ++ errProg :: [])) 0 0
          [] 0).1 = seccompResult.deny
       ∨ (checkSeccompSyscall (fun _ => false) (some ([] ++ errProg :: [])) 0 0
          [] 0).1 = seccompResult.allow
       ∨ (checkSeccompSyscall (fun _ => false) (some ([] ++ errProg :: [])) 0 0
          [] 0).1 = seccompResult.kill
       ∨ (checkSeccompSyscall (fun _ => false) (some ([] ++ errProg :: [])) 0 0
          [] 0).1 = seccompResult.trace) :=
  seccomp_interpreter_error_fail_closed [] [] errProg (fun _ => false) 0 0
    [] 0 rfl

/-! Installer: capacity accounting. -/

/-- Projected total instruction count for installing p on top of stack sf,
stated as the spec words it: p's length plus the sum over every pre-existing
filter of its length plus 4. -/
def projectedTotal (sf : Option (List Program)) (p : Program) : Nat :=
  p.length + ((sf.getD []).map (fun f => f.length + 4)).sum

lemma foldl_length_total (fs : List Program) (n : Nat) :
    fs.foldl (fun m f => m + (f.length + 4)) n
      = n + (fs.map (fun f => f.length + 4)).sum := by
  induction fs generalizing n with
  | nil => simp
  | cons f fsr ih =>
      rw [List.foldl_cons, ih, List.map_cons, List.sum_cons]
      omega

lemma appendSyscallFilter_eq (sf : Option (List Program)) (p : Program) :
    appendSyscallFilter sf p
      = if projectedTotal sf p > maxSyscallFilterInstructions
        then .error .ENOMEM
        else .ok ((sf.getD []) ++ [p]) := by
  cases sf with
  | none => simp [appendSyscallFilter, projectedTotal]
  | some fs =>
      simp only [appendSyscallFilter, projectedTotal, Option.getD_some]
      rw [foldl_length_total]

/-- C2: AppendSyscallFilter fails with ENOMEM exactly when the projected
total — the new program's length plus the sum over every pre-existing filter
of its length plus 4 — strictly exceeds 32768, so a projected total of
exactly 32768 succeeds; on failure the state, in particular the published
stack, is left completely unchanged; on success the task's new published
stack is the old stack with p appended at the end and no other task's stack
changes. -/
theorem seccomp_append_capacity (s : SState) (t : TaskId) (p : Program) :
    ((AppendSyscallFilterS s t p).2 = some SyscallFilterError.ENOMEM
       ↔ projectedTotal (s.filters t) p > 32768)
    ∧ (projectedTotal (s.filters t) p > 32768 →
        (AppendSyscallFilterS s t p).1 = s)
    ∧ (projectedTotal (s.filters t) p ≤ 32768 →
        (AppendSyscallFilterS s t p).1.filters t
          = some (((s.filters t).getD []) ++ [p])
        ∧ ∀ u : TaskId, u ≠ t →
            (AppendSyscallFilterS s t p).1.filters u = s.filters u) := by
  have hmax : maxSyscallFilterInstructions = 32768 := by decide
  by_cases h : projectedTotal (s.filters t) p > 32768
  · have happ : appendSyscallFilter (s.filters t) p
        = .error SyscallFilterError.ENOMEM := by
      rw [appendSyscallFilter_eq, hmax, if_pos h]
    refine ⟨?_, fun _ => ?_, fun hle => absurd h (by omega)⟩
    · simp only [AppendSyscallFilterS, happ]
      exact ⟨fun _ => h, fun _ => trivial⟩
    · simp [AppendSyscallFilterS, happ]
  · have happ : appendSyscallFilter (s.filters t) p
        = .ok (((s.filters t).getD []) ++ [p]) := by
      rw [appendSyscallFilter_eq, hmax, if_neg h]
    refine ⟨?_, fun hgt => absurd hgt h, fun _ => ⟨?_, fun u hu => ?_⟩⟩
    · simp [AppendSyscallFilterS, happ]
      omega
    · simp [AppendSyscallFilterS, happ]
    · simp [AppendSyscallFilterS, happ, hu]

/-- State in which no task has any published filters; every task is in
thread group 0. -/
def emptyState : SState := { filters := fun _ => none, tgid := fun _ => 0 }

/-- Concrete filter of length 30000 returning ALLOW. -/
def prog30000 : Program := { length := 30000, exec := fun _ => some 0x7fff0000 }

/-- Concrete filter of length 3000 returning ALLOW. -/
def prog3000 : Program := { length := 3000, exec := fun _ => some 0x7fff0000 }

/-- State after installing the length-30000 filter on task 0. -/
def state30000 : SState := (AppendSyscallFilterS emptyState 0 prog30000).1

/-- Witness for C2: after a successful install of a length-30000 filter,
installing a length-3000 filter fails with ENOMEM (30000 + 3000 + 4 exceeds
32768), the state is unchanged, and the stack remains at length 1. -/
theorem seccomp_append_capacity_witness :
    projectedTotal (state30000.filters 0) prog3000 > 32768
    ∧ (AppendSyscallFilterS state30000 0 prog3000).2
        = some SyscallFilterError.ENOMEM
    ∧ (AppendSyscallFilterS state30000 0 prog3000).1 = state30000
    ∧ ((state30000.filters 0).getD []).length = 1 := by
  have h := seccomp_append_capacity state30000 0 prog3000
  have hgt : projectedTotal (state30000.filters 0) prog3000 > 32768 := by
    decide
  exact ⟨hgt, h.1.mpr hgt, h.2.1 hgt, by decide⟩

/-! Mode law and thread-group synchronization. -/

lemma SeccompMode_filter_iff (sf : Option (List Program)) :
    SeccompMode sf = SECCOMP_MODE_FILTER ↔ sf.getD [] ≠ [] := by
  cases sf with
  | none => simp [SeccompMode, SECCOMP_MODE_NONE, SECCOMP_MODE_FILTER]
  | some fs =>
      cases fs with
      | nil => simp [SeccompMode, SECCOMP_MODE_NONE, SECCOMP_MODE_FILTER]
      | cons f fsr => simp [SeccompMode, SECCOMP_MODE_FILTER]

/-- State for the C6 counterexample: task 0 has one installed filter, task 1
has none; both are in thread group 0. -/
def stateOneFiltered : SState :=
  { filters := fun u => if u = 0 then some [killProg] else none
    tgid := fun _ => 0 }

/-- C6 counterexample: task 0's seccomp mode is FILTER, but after task 1
(whose own stack is absent) syncs its filters to the thread group, task 0's
mode is NONE again: a thread-group sync from a filterless sibling flips a
task's mode from FILTER back to NONE. -/
theorem seccomp_mode_flips_back_counterexample :
    SeccompMode (stateOneFiltered.filters 0) = SECCOMP_MODE_FILTER
    ∧ SeccompMode
        ((SyncSyscallFiltersToThreadGroup stateOneFiltered 1).filters 0)
        = SECCOMP_MODE_NONE
    ∧ SECCOMP_MODE_NONE ≠ SECCOMP_MODE_FILTER := by
  refine ⟨rfl, ?_, by decide⟩
  have hf : (SyncSyscallFiltersToThreadGroup stateOneFiltered 1).filters 0
      = some [] := by
    simp [SyncSyscallFiltersToThreadGroup, stateOneFiltered]
  rw [hf]
  rfl

/-- C6 (amended): SeccompMode reports FILTER iff the published stack is
non-empty; a successful install always leaves the installing task in FILTER
mode, so installing the first filter flips NONE to FILTER; no install (on
any task) ever flips a task's mode from FILTER back to NONE; and a
thread-group sync never flips a task's mode back provided the syncing task's
published stack is non-empty — only a sync from a task with an empty or
absent stack can reset a sibling's mode to NONE. -/
theorem seccomp_mode_law (sf : Option (List Program)) (s : SState)
    (t u : TaskId) (p : Program) :
    (SeccompMode sf = SECCOMP_MODE_FILTER ↔ sf.getD [] ≠ [])
    ∧ ((AppendSyscallFilterS s t p).2 = none →
        SeccompMode ((AppendSyscallFilterS s t p).1.filters t)
          = SECCOMP_MODE_FILTER)
    ∧ (SeccompMode (s.filters u) = SECCOMP_MODE_FILTER →
        SeccompMode ((AppendSyscallFilterS s t p).1.filters u)
          = SECCOMP_MODE_FILTER)
    ∧ ((s.filters t).getD [] ≠ [] →
        SeccompMode (s.filters u) = SECCOMP_MODE_FILTER →
        SeccompMode ((SyncSyscallFiltersToThreadGroup s t).filters u)
          = SECCOMP_MODE_FILTER) := by
  have hiff := SeccompMode_filter_iff
  refine ⟨hiff sf, ?_, ?_, ?_⟩
  · intro hok
    by_cases h : projectedTotal (s.filters t) p > maxSyscallFilterInstructions
    · exfalso
      have happ : appendSyscallFilter (s.filters t) p
          = .error SyscallFilterError.ENOMEM := by
        rw [appendSyscallFilter_eq, if_pos h]
      simp [AppendSyscallFilterS, happ] at hok
    · have happ : appendSyscallFilter (s.filters t) p
          = .ok (((s.filters t).getD []) ++ [p]) := by
        rw [appendSyscallFilter_eq, if_neg h]
      have hft : (AppendSyscallFilterS s t p).1.filters t
          = some (((s.filters t).getD []) ++ [p]) := by
        simp [AppendSyscallFilterS, happ]
      rw [hft, hiff]
      simp
  · intro hu
    by_cases h : projectedTotal (s.filters t) p > maxSyscallFilterInstructions
    · have happ : appendSyscallFilter (s.filters t) p
          = .error SyscallFilterError.ENOMEM := by
        rw [appendSyscallFilter_eq, if_pos h]
      simp only [AppendSyscallFilterS, happ]
      exact hu
    · have happ : appendSyscallFilter (s.filters t) p
          = .ok (((s.filters t).getD []) ++ [p]) := by
        rw [appendSyscallFilter_eq, if_neg h]
      by_cases hut : u = t
      · subst hut
        have hft : (AppendSyscallFilterS s u p).1.filters u
            = some (((s.filters u).getD []) ++ [p]) := by
          simp [AppendSyscallFilterS, happ]
        rw [hft, hiff]
        simp
      · have hfu : (AppendSyscallFilterS s t p).1.filters u = s.filters u := by
          simp [AppendSyscallFilterS, happ, hut]
        rw [hfu]
        exact hu
  · intro hne hu
    by_cases hmem : s.tgid u = s.tgid t ∧ u ≠ t
    · have hfu : (SyncSyscallFiltersToThreadGroup s t).filters u
          = some ((s.filters t).getD []) := by
        simp [SyncSyscallFiltersToThreadGroup, hmem]
      rw [hfu, hiff]
      simpa using hne
    · have hfu : (SyncSyscallFiltersToThreadGroup s t).filters u
          = s.filters u := by
        simp [SyncSyscallFiltersToThreadGroup, hmem]
      rw [hfu]
      exact hu

/-- State in which every task has one installed filter; one thread group. -/
def stateBothFiltered : SState :=
  { filters := fun _ => some [killProg], tgid := fun _ => 0 }

/-- Witness for the amended C6: with both tasks filtered, a sync from task 0
(whose stack is non-empty) leaves task 1 in FILTER mode. -/
theorem seccomp_mode_law_witness :
    (SeccompMode (some [killProg]) = SECCOMP_MODE_FILTER
       ↔ (some [killProg] : Option (List Program)).getD [] ≠ [])
    ∧ SeccompMode
        ((SyncSyscallFiltersToThreadGroup stateBothFiltered 0).filters 1)
        = SECCOMP_MODE_FILTER := by
  have h := seccomp_mode_law (some [killProg]) stateBothFiltered 0 1 killProg
  refine ⟨h.1, h.2.2.2 ?_ ?_⟩
  · exact List.cons_ne_nil killProg []
  · rfl

/-! Dispatcher outcomes for KILL, unrecognized, and TRACE verdicts. -/

/-- C7: whenever the combined verdict's action code is KILL, or is not one of
the five recognized codes KILL, TRAP, ERRNO, TRACE, ALLOW, checkSeccompSyscall
returns the kill outcome (the task is to terminate as if killed by SIGSYS)
and performs no signal delivery, no return-value rewrite and no tracer
notification: the effect list is empty. -/
theorem seccomp_kill_or_unrecognized (tracer : Nat → Bool)
    (sf : Option (List Program)) (auditArch : Nat) (sysno : Int)
    (args : List Nat) (ip : Nat)
    (h : evaluateSyscallFilters sf (mkSeccompData sysno auditArch args ip)
          &&& SECCOMP_RET_ACTION = SECCOMP_RET_KILL
       ∨ evaluateSyscallFilters sf (mkSeccompData sysno auditArch args ip)
          &&& SECCOMP_RET_ACTION ∉
            [SECCOMP_RET_KILL, SECCOMP_RET_TRAP, SECCOMP_RET_ERRNO,
             SECCOMP_RET_TRACE, SECCOMP_RET_ALLOW]) :
    checkSeccompSyscall tracer sf auditArch sysno args ip
      = (seccompResult.kill, []) := by
  unfold checkSeccompSyscall seccompDispatch
  rcases h with h | h
  · rw [h, if_neg (by decide), if_neg (by decide), if_neg (by decide),
        if_neg (by decide)]
  · simp only [List.mem_cons, List.not_mem_nil, or_false, not_or] at h
    obtain ⟨h1, h2, h3, h4, h5⟩ := h
    rw [if_neg h2, if_neg h3, if_neg h4, if_neg h5]

/-- Witness for C7: a single KILL filter produces the kill outcome with no
side effects. -/
theorem seccomp_kill_or_unrecognized_witness :
    checkSeccompSyscall (fun _ => false) (some [killProg]) 0 0 [] 0
      = (seccompResult.kill, []) :=
  seccomp_kill_or_unrecognized (fun _ => false) (some [killProg]) 0 0 [] 0
    (Or.inl (by decide))

/-- C8: when the combined verdict's action is TRACE, the dispatcher attempts
tracer notification passing the verdict's 16-bit auxiliary data; if the
capability reports that a tracer was actually notified the outcome is trace,
otherwise the pending return value is rewritten to minus ENOSYS and the
outcome is deny. -/
theorem seccomp_trace_dispatch (tracer : Nat → Bool)
    (sf : Option (List Program)) (auditArch : Nat) (sysno : Int)
    (args : List Nat) (ip : Nat)
    (h : evaluateSyscallFilters sf (mkSeccompData sysno auditArch args ip)
          &&& SECCOMP_RET_ACTION = SECCOMP_RET_TRACE) :
    checkSeccompSyscall tracer sf auditArch sysno args ip
      = (if tracer (toUint16
            (evaluateSyscallFilters sf (mkSeccompData sysno auditArch args ip)
              &&& SECCOMP_RET_DATA))
         then (seccompResult.trace,
               [SeccompEffect.notifyTracer (toUint16
                 (evaluateSyscallFilters sf
                   (mkSeccompData sysno auditArch args ip)
                   &&& SECCOMP_RET_DATA))])
         else (seccompResult.deny,
               [SeccompEffect.notifyTracer (toUint16
                 (evaluateSyscallFilters sf
                   (mkSeccompData sysno auditArch args ip)
                   &&& SECCOMP_RET_DATA)),
                SeccompEffect.setReturn (-ENOSYS)])) := by
  unfold checkSeccompSyscall seccompDispatch
  rw [h, if_neg (by decide), if_neg (by decide), if_pos rfl]

/-- Witness for C8: a single TRACE filter with auxiliary data 7 and no
tracer attached yields deny with the return value rewritten to minus
ENOSYS. -/
theorem seccomp_trace_dispatch_witness :
    checkSeccompSyscall (fun _ => false) (some [traceProg]) 0 0 [] 0
      = (seccompResult.deny,
         [SeccompEffect.notifyTracer 7, SeccompEffect.setReturn (-38)]) := by
  have h := seccomp_trace_dispatch (fun _ => false) (some [traceProg]) 0 0
    [] 0 (by decide)
  rw [h]
  decide

/-! Thread-group synchronization: independent copies. -/

lemma eval_getD (sf : Option (List Program)) (d : SeccompData) :
    evaluateSyscallFilters (some (sf.getD [])) d
      = evaluateSyscallFilters sf d := by
  cases sf <;> rfl

/-- C9: after SyncSyscallFiltersToThreadGroup from task t, every sibling u in
t's thread group evaluates every syscall snapshot exactly as t did at sync
time; and a subsequent AppendSyscallFilter on sibling u changes only u's
published stack: every other task v keeps its stack, and hence its
evaluation behavior, unchanged. -/
theorem seccomp_sync_independent_copies (s : SState) (t u v : TaskId)
    (p : Program) (d d' : SeccompData)
    (hu : s.tgid u = s.tgid t ∧ u ≠ t) (hv : v ≠ u) :
    evaluateSyscallFilters
        ((SyncSyscallFiltersToThreadGroup s t).filters u) d
      = evaluateSyscallFilters (s.filters t) d
    ∧ (AppendSyscallFilterS
         (SyncSyscallFiltersToThreadGroup s t) u p).1.filters v
        = (SyncSyscallFiltersToThreadGroup s t).filters v
    ∧ evaluateSyscallFilters
        ((AppendSyscallFilterS
           (SyncSyscallFiltersToThreadGroup s t) u p).1.filters v) d'
      = evaluateSyscallFilters
          ((SyncSyscallFiltersToThreadGroup s t).filters v) d' := by
  have hfu : (SyncSyscallFiltersToThreadGroup s t).filters u
      = some ((s.filters t).getD []) := by
    simp [SyncSyscallFiltersToThreadGroup, hu]
  have hkeep : (AppendSyscallFilterS
      (SyncSyscallFiltersToThreadGroup s t) u p).1.filters v
      = (SyncSyscallFiltersToThreadGroup s t).filters v := by
    cases happ : appendSyscallFilter
        ((SyncSyscallFiltersToThreadGroup s t).filters u) p with
    | error e => simp [AppendSyscallFilterS, happ]
    | ok nf => simp [AppendSyscallFilterS, happ, hv]
  refine ⟨?_, hkeep, by rw [hkeep]⟩
  rw [hfu, eval_getD]

/-- Witness for C9: task 0 has one filter, task 1 none; after task 0 syncs,
task 1 evaluates like task 0, and appending to task 1 leaves task 0's stack
and behavior unchanged. -/
theorem seccomp_sync_independent_copies_witness :
    evaluateSyscallFilters
        ((SyncSyscallFiltersToThreadGroup stateOneFiltered 0).filters 1)
        sampleData
      = evaluateSyscallFilters (stateOneFiltered.filters 0) sampleData
    ∧ (AppendSyscallFilterS
         (SyncSyscallFiltersToThreadGroup stateOneFiltered 0) 1
         prog3000).1.filters 0
        = (SyncSyscallFiltersToThreadGroup stateOneFiltered 0).filters 0
    ∧ evaluateSyscallFilters
        ((AppendSyscallFilterS
           (SyncSyscallFiltersToThreadGroup stateOneFiltered 0) 1
           prog3000).1.filters 0) sampleData
      = evaluateSyscallFilters
          ((SyncSyscallFiltersToThreadGroup stateOneFiltered 0).filters 0)
          sampleData :=
  seccomp_sync_independent_copies stateOneFiltered 0 1 0 prog3000 sampleData
    sampleData (by decide) (by decide)
